import Mathlib

/-!
Verification of the request-dispatch and validation layer of wg-api.

The Go sources are embedded shallowly:

* pure Go functions become Lean functions with the same structure;
* the WireGuard control client (`wgctrl.Client`) is modelled as a record of
  function-valued fields (`WGClient`), and every server handler additionally
  returns the list of provider calls it performed, so that "no call to the
  provider occurs" is a statement about that trace;
* the Go standard library's base64 codec (`encoding/base64`, StdEncoding) and
  address parsing (`net.ParseCIDR` with its IPv4/IPv6 parsers) are translated
  from their sources, since the validation rules under verification call them;
* `net.ResolveUDPAddr` (which may consult DNS, hence is effectful) and
  `time.ParseDuration` (whose fractional component uses host floating point)
  are modelled as an ambient environment `StdEnv` the validators consult;
  every theorem below is proved for an arbitrary environment;
* machine integers are modelled as `Int`/`Nat` (no arithmetic in this layer
  can overflow: codes are small constants, lengths are list lengths);
* Go byte-string lengths are modelled with `String.utf8ByteSize`, which agrees
  with Go's `len` on UTF-8 strings.
-/

set_option autoImplicit false

/-! ## Go standard base64 (encoding/base64, StdEncoding)

`DecodeString` assembles 4-character quanta, skipping CR/LF anywhere, requires
padding (`=`) to complete a final partial quantum, and rejects trailing data
after padding.  Skipping CR/LF during assembly is equivalent to removing all
CR/LF first, which is how it is modelled here. -/

def stripNewlines (l : List Char) : List Char :=
  l.filter (fun c => c != '\n' && c != '\r')

/-- Index of a character in the standard base64 alphabet (decodeMap). -/
def b64Index (c : Char) : Option Nat :=
  if 'A' ≤ c ∧ c ≤ 'Z' then some (c.toNat - 65)
  else if 'a' ≤ c ∧ c ≤ 'z' then some (c.toNat - 97 + 26)
  else if '0' ≤ c ∧ c ≤ '9' then some (c.toNat - 48 + 52)
  else if c = '+' then some 62
  else if c = '/' then some 63
  else none

/-- Decode a CR/LF-free character list the way Go's StdEncoding does:
full quanta of 4 alphabet characters yield 3 bytes; the final quantum may end
in `=` (2 bytes) or `==` (1 byte), after which no characters may follow;
a leftover of 1-3 characters without correct padding is an error. -/
def b64DecodeGo : List Char → Option (List Nat)
  | [] => some []
  | c0 :: c1 :: c2 :: c3 :: rest =>
    match b64Index c0, b64Index c1 with
    | some a, some b =>
      if c2 = '=' then
        if c3 = '=' ∧ rest = [] then some [a * 4 + b / 16] else none
      else
        match b64Index c2 with
        | some c =>
          if c3 = '=' then
            if rest = [] then some [a * 4 + b / 16, b % 16 * 16 + c / 4] else none
          else
            match b64Index c3 with
            | some d =>
              match b64DecodeGo rest with
              | some tl => some ((a * 4 + b / 16) :: (b % 16 * 16 + c / 4) :: (c % 4 * 64 + d) :: tl)
              | none => none
            | none => none
        | none => none
    | _, _ => none
  | _ => none

/-- Character of the standard base64 alphabet at sextet `n` (`n < 64`). -/
def b64Chr (n : Nat) : Char :=
  if n < 26 then Char.ofNat (65 + n)
  else if n < 52 then Char.ofNat (97 + (n - 26))
  else if n < 62 then Char.ofNat (48 + (n - 52))
  else if n = 62 then '+' else '/'

/-- Go's StdEncoding `EncodeToString` on a byte list. -/
def b64EncodeGo : List Nat → List Char
  | [] => []
  | [a] => [b64Chr (a / 4), b64Chr (a % 4 * 16), '=', '=']
  | [a, b] => [b64Chr (a / 4), b64Chr (a % 4 * 16 + b / 16), b64Chr (b % 16 * 4), '=']
  | a :: b :: c :: rest =>
    b64Chr (a / 4) :: b64Chr (a % 4 * 16 + b / 16) :: b64Chr (b % 16 * 4 + c / 64) ::
      b64Chr (c % 64) :: b64EncodeGo rest

/-- Go's `base64.StdEncoding.DecodeString` on a Lean string. -/
def base64StdDecode (s : String) : Option (List Nat) :=
  b64DecodeGo (stripNewlines s.data)

namespace wgtypes

/-- A WireGuard key: 32 raw bytes (`wgtypes.Key`, `[KeyLen]byte`). -/
def Key := List Nat

instance : DecidableEq Key := inferInstanceAs (DecidableEq (List Nat))

instance : BEq Key := ⟨fun a b => decide (a = b)⟩

/-- The zero key, `wgtypes.Key{}`. -/
def zeroKey : Key := List.replicate 32 0

/-- `wgtypes.ParseKey`: base64-decode, then `NewKey` checks the length is
exactly 32.  The wrapped detail text of the base64 error is not modelled
(no claim depends on it); the 32-byte length check and the distinct error
messages of the two failure modes are. -/
def ParseKey (s : String) : Except String Key :=
  match base64StdDecode s with
  | none => Except.error "wgtypes: failed to parse base64-encoded key"
  | some b =>
    if b.length = 32 then Except.ok b
    else Except.error ("wgtypes: incorrect key size: " ++ toString b.length)

/-- `wgtypes.Key.String()`: standard base64 of the 32 bytes. -/
def keyString (k : Key) : String :=
  ⟨b64EncodeGo k⟩

end wgtypes

/-! ## Go net package: address parsing (net.ParseCIDR and helpers)

Translated from Go's `net/ip.go` (`dtoi`, `xtoi`, `parseIPv4`, `parseIPv6`,
`ParseCIDR`); only the parts the validation rules reach are relevant.
`dtoi`/`xtoi` abort with failure once the accumulated value reaches the
`big = 0xFFFFFF` cutoff, so full-consumption success is equivalent to
"non-empty, all digits, value below the cutoff". -/

/-- Value of a decimal digit string read left to right. -/
def digitsVal (l : List Char) : Nat :=
  l.foldl (fun n c => n * 10 + (c.toNat - 48)) 0

/-- Go's `dtoi` required to consume the whole string (as `ParseCIDR` demands
of the mask part): non-empty, all decimal digits, value below the cutoff. -/
def dtoiFull (l : List Char) : Option Nat :=
  if l ≠ [] ∧ l.all Char.isDigit ∧ digitsVal l < 0xFFFFFF then some (digitsVal l)
  else none

/-- One dotted-decimal IPv4 field (`dtoi` + range and leading-zero checks from
Go's `parseIPv4`, which rejects fields with leading zeros). -/
def parseV4Field (l : List Char) : Option Nat :=
  if l = [] then none
  else if ¬ l.all Char.isDigit then none
  else if 1 < l.length ∧ l.head? = some '0' then none
  else if digitsVal l ≤ 255 then some (digitsVal l) else none

/-- Split a character list at every occurrence of `sep`. -/
def splitOnChar (sep : Char) : List Char → List (List Char)
  | [] => [[]]
  | c :: rest =>
    match splitOnChar sep rest with
    | [] => [[]]
    | g :: gs => if c = sep then [] :: g :: gs else (c :: g) :: gs

/-- Split a character list at the first occurrence of `sep`, if any. -/
def splitFirst (sep : Char) : List Char → Option (List Char × List Char)
  | [] => none
  | c :: rest =>
    if c = sep then some ([], rest)
    else (splitFirst sep rest).map (fun p => (c :: p.1, p.2))

/-- Go's `parseIPv4`: exactly four non-empty decimal fields without leading
zeros, each at most 255.  Returns the four bytes. -/
def parseIPv4 (l : List Char) : Option (List Nat) :=
  match splitOnChar '.' l with
  | [a, b, c, d] =>
    match parseV4Field a, parseV4Field b, parseV4Field c, parseV4Field d with
    | some x, some y, some z, some w => some [x, y, z, w]
    | _, _, _, _ => none
  | _ => none

/-- Value of a hexadecimal digit, if any. -/
def hexVal (c : Char) : Option Nat :=
  if '0' ≤ c ∧ c ≤ '9' then some (c.toNat - 48)
  else if 'a' ≤ c ∧ c ≤ 'f' then some (c.toNat - 97 + 10)
  else if 'A' ≤ c ∧ c ≤ 'F' then some (c.toNat - 65 + 10)
  else none

/-- Go's `xtoi`: read hexadecimal digits, aborting at the `big` cutoff.
Returns the value, the unconsumed remainder and the success flag (false when
no digit was read or the cutoff was reached). -/
def xtoiAux : List Char → Nat → Nat → Nat × List Char × Bool
  | [], n, i => (n, [], decide (i ≠ 0))
  | c :: rest, n, i =>
    match hexVal c with
    | none => (n, c :: rest, decide (i ≠ 0))
    | some v =>
      if n * 16 + v ≥ 0xFFFFFF then (0, c :: rest, false)
      else xtoiAux rest (n * 16 + v) (i + 1)

def xtoi (l : List Char) : Nat × List Char × Bool :=
  xtoiAux l 0 0

/-- End-of-parse step of Go's `parseIPv6`: expand the `::` ellipsis (if any)
with zero bytes so the address is 16 bytes long. -/
def ipv6Finish (acc : List Nat) (ell : Option Nat) : Option (List Nat) :=
  if acc.length < 16 then
    match ell with
    | none => none
    | some e => some (acc.take e ++ List.replicate (16 - acc.length) 0 ++ acc.drop e)
  else
    match ell with
    | some _ => none
    | none => some acc

/-- Main loop of Go's `parseIPv6`, fuelled (the fuel strictly exceeds the
remaining character count, so it never runs out).  `acc` holds the bytes
produced so far, `ell` the byte position of a `::` ellipsis if one was seen. -/
def parseIPv6Loop : Nat → List Char → List Nat → Option Nat → Option (List Nat)
  | 0, _, _, _ => none
  | fuel + 1, s, acc, ell =>
    if 16 ≤ acc.length then none
    else
      match xtoi s with
      | (n, rest, ok) =>
        if ok = false ∨ 0xFFFF < n then none
        else if rest.head? = some '.' then
          if (ell = none ∧ acc.length ≠ 12) ∨ 16 < acc.length + 4 then none
          else
            match parseIPv4 s with
            | none => none
            | some ip4 => ipv6Finish (acc ++ ip4) ell
        else
          let acc2 := acc ++ [n / 256, n % 256]
          match rest with
          | [] => ipv6Finish acc2 ell
          | ':' :: rest2 =>
            match rest2 with
            | [] => none
            | ':' :: rest3 =>
              if ell ≠ none then none
              else if rest3 = [] then ipv6Finish acc2 (some acc2.length)
              else parseIPv6Loop fuel rest3 acc2 (some acc2.length)
            | _ => parseIPv6Loop fuel rest2 acc2 ell
          | _ => none

/-- Go's `parseIPv6` (zone already removed). -/
def parseIPv6 (s : List Char) : Option (List Nat) :=
  match s with
  | ':' :: ':' :: rest =>
    if rest = [] then some (List.replicate 16 0)
    else parseIPv6Loop (rest.length + 1) rest [] (some 0)
  | _ => parseIPv6Loop (s.length + 1) s [] none

/-- Drop a `%zone` suffix (split at the last `%`), as Go's `parseIPv6Zone`
does; `ParseCIDR` discards the zone. -/
def dropZone (s : List Char) : List Char :=
  match splitFirst '%' s.reverse with
  | none => s
  | some (_, hostRev) => hostRev.reverse

/-- Keep the top `k` bits of a byte (`k ≤ 8`). -/
def maskByte (b k : Nat) : Nat :=
  b / 2 ^ (8 - k) * 2 ^ (8 - k)

/-- Byte-wise application of a CIDR mask of `bits` leading one-bits. -/
def applyMask : List Nat → Nat → List Nat
  | [], _ => []
  | b :: rest, bits => maskByte b (min 8 bits) :: applyMask rest (bits - min 8 bits)

/-- A parsed network (`net.IPNet`): the masked network address and the prefix
length (Go stores the mask as bytes; for masks produced by `CIDRMask` the
prefix length is an equivalent representation). -/
structure IPNet where
  IP : List Nat
  MaskBits : Nat

/-- Go's `net.ParseCIDR`: split at the first `/`, parse the address as IPv4
dotted decimal or else IPv6, parse the mask as a full decimal number of at
most `8 * iplen` bits.  Returns the (unmasked) address and the network.
On any failure Go returns `&ParseError{Type: "CIDR address", Text: s}`, whose
rendering is `"invalid CIDR address: " ++ s`. -/
def ParseCIDR (s : String) : Option (List Nat × IPNet) :=
  match splitFirst '/' s.data with
  | none => none
  | some (addr, mask) =>
    match
      (match parseIPv4 addr with
       | some ip => some (ip, 4)
       | none =>
         match parseIPv6 (dropZone addr) with
         | some ip => some (ip, 16)
         | none => none : Option (List Nat × Nat)) with
    | none => none
    | some (ip, iplen) =>
      match dtoiFull mask with
      | none => none
      | some n =>
        if n ≤ 8 * iplen then some (ip, { IP := applyMask ip n, MaskBits := n })
        else none

/-- Ambient standard-library environment.  `resolveUDPAddr` models
`net.ResolveUDPAddr("udp", s)` (which may consult DNS and is therefore not a
pure function of `s`); `parseDuration` models `time.ParseDuration` (whose
fractional-part handling uses host floating point).  Results carry the
rendered value (a `*net.UDPAddr` as its `String()` form, a `time.Duration`
in nanoseconds) or the error text.  All theorems hold for every environment. -/
structure StdEnv where
  resolveUDPAddr : String → Except String String
  parseDuration : String → Except String Int

/-! ## wgtypes device model (golang.zx2c4.com/wireguard/wgctrl/wgtypes)

Fields the server never reads are omitted.  Fields the server only ever
renders with `String()` (peer endpoint, keep-alive interval, allowed IPs of a
device peer, device type, handshake time) carry their rendered form, since
the rendering itself (Go standard formatting) is outside the layer under
verification. -/

namespace wgtypes

/-- A `time.Duration` as the server sees it: the nanosecond value (used for
the `> 0` comparison) and the text its `String()` method renders (Go standard
formatting, not modelled). -/
structure GoDuration where
  ns : Int
  render : String

/-- `wgtypes.Peer`, a peer as reported by the device.  `Endpoint` is the
`String()` form of the `*net.UDPAddr` (`none` models a nil pointer, whose
`String()` is `"<nil>"`); `AllowedIPs` are the `String()` forms of the
`net.IPNet` entries; `LastHandshakeTime` is the `time.Time` value, opaque
here. -/
structure Peer where
  PublicKey : Key
  PresharedKey : Key
  Endpoint : Option String
  PersistentKeepaliveInterval : GoDuration
  LastHandshakeTime : Int
  ReceiveBytes : Int
  TransmitBytes : Int
  AllowedIPs : List String
  ProtocolVersion : Int

/-- `wgtypes.Device`.  `Typ` models the Go field `Type` (a keyword in Lean)
and carries the rendered `dev.Type.String()`. -/
structure Device where
  Name : String
  Typ : String
  PublicKey : Key
  ListenPort : Int
  FirewallMark : Int
  Peers : List Peer

/-- `wgtypes.PeerConfig`, the change submitted to `ConfigureDevice`.
`Endpoint` carries the resolved address (its rendered form), and
`PersistentKeepaliveInterval` the parsed duration in nanoseconds. -/
structure PeerConfig where
  PublicKey : Key
  Remove : Bool := false
  PresharedKey : Option Key := none
  Endpoint : Option String := none
  PersistentKeepaliveInterval : Option Int := none
  AllowedIPs : List IPNet := []

/-- `wgtypes.Config` as the server builds it: only the `Peers` field is ever
set. -/
structure Config where
  Peers : List PeerConfig

end wgtypes

/-! ## client package: wire request/response shapes (client/client.go) -/

namespace client

/-- Wire-level device shape; `Typ` models the Go field `Type`. -/
structure Device where
  Name : String
  Typ : String
  PublicKey : String
  ListenPort : Int
  FirewallMark : Int
  NumPeers : Int

structure GetDeviceInfoRequest where

structure GetDeviceInfoResponse where
  Device : Option Device

structure Peer where
  PublicKey : String
  HasPresharedKey : Bool
  Endpoint : String
  PersistentKeepAlive : String
  LastHandshake : Int
  ReceiveBytes : Int
  TransmitBytes : Int
  AllowedIPs : List String
  ProtocolVersion : Int

structure ListPeersRequest where
  Limit : Int
  Offset : Int

structure ListPeersResponse where
  Peers : List Peer

structure GetPeerRequest where
  PublicKey : String

structure GetPeerResponse where
  Peer : Option Peer

structure AddPeerRequest where
  PublicKey : String
  PresharedKey : String
  Endpoint : String
  PersistentKeepAlive : String
  AllowedIPs : List String
  ValidateOnly : Bool

/-- `OK` is false by default: `&AddPeerResponse{}` reports `ok=false`. -/
structure AddPeerResponse where
  OK : Bool := false

structure RemovePeerRequest where
  PublicKey : String
  ValidateOnly : Bool

structure RemovePeerResponse where
  OK : Bool := false

end client

/-! ## jsonrpc package (server/jsonrpc/jsonrpc.go) -/

namespace jsonrpc

/-- A top-level JSON-RPC error (`jsonrpc.Error`).  The `Data` payload is
`interface{}` in Go; every call site in this repository passes `nil` or a
string, modelled as `Option String`. -/
structure Error where
  Code : Int
  Message : String
  Data : Option String

/-- The `Error()` method: `fmt.Sprintf("Error(%d): %s", e.Code, e.Message)`. -/
def Error.errorText (e : Error) : String :=
  "Error(" ++ toString e.Code ++ "): " ++ e.Message

/-- `jsonrpc.ParseError`: code -32700. -/
def ParseError (message : String) (data : Option String) : Error :=
  { Code := -32700, Message := message, Data := data }

/-- `jsonrpc.InvalidRequest`: code -32600. -/
def InvalidRequest (message : String) (data : Option String) : Error :=
  { Code := -32600, Message := message, Data := data }

/-- `jsonrpc.MethodNotFound`: code -32601. -/
def MethodNotFound (message : String) (data : Option String) : Error :=
  { Code := -32601, Message := message, Data := data }

/-- `jsonrpc.InvalidParams`: code -32602. -/
def InvalidParams (message : String) (data : Option String) : Error :=
  { Code := -32602, Message := message, Data := data }

/-- `jsonrpc.InternalError`: code -32603. -/
def InternalError (message : String) (data : Option String) : Error :=
  { Code := -32603, Message := message, Data := data }

/-- `jsonrpc.ServerError`: builds the error with the given code as written in
the source — the body performs no check of the documented -32000..-32099
range. -/
def ServerError (code : Int) (message : String) (data : Option String) : Error :=
  { Code := code, Message := message, Data := data }

/-- The possible non-error values the dispatcher hands to
`ResponseWriter.Write` (the `interface{}` result). -/
inductive RPCResult where
  | deviceInfo (r : client.GetDeviceInfoResponse)
  | listPeers (r : client.ListPeersResponse)
  | getPeer (r : client.GetPeerResponse)
  | addPeer (r : client.AddPeerResponse)
  | removePeer (r : client.RemovePeerResponse)

/-- The dynamic value passed to `Write`: a `*jsonrpc.Error`, some other value
implementing Go's `error` interface, or a plain result. -/
inductive WriteArg where
  | rpcErr (e : Error)
  | goErr (msg : String)
  | value (v : RPCResult)

/-- The `response` struct: what the HTTP adapter marshals back. -/
structure response where
  Version : String
  Result : Option RPCResult
  Err : Option Error
  ID : String

/-- `response.Write`: fails (with a plain Go error, `fmt.Errorf`) when BOTH a
result and an error are already present — `r.Result != nil && r.Error != nil`
in the source; otherwise it stores the argument, overwriting any previous
value of the field it writes to. -/
def response.Write (r : response) (res : WriteArg) : Except String response :=
  if r.Result.isSome && r.Err.isSome then Except.error "response already written"
  else
    match res with
    | WriteArg.rpcErr e => Except.ok { r with Err := some e }
    | WriteArg.goErr m => Except.ok { r with Err := some (InternalError m none) }
    | WriteArg.value v => Except.ok { r with Result := some v }

end jsonrpc

/-! ## server package (server/server.go)

The `wgctrl.Client` is modelled as a record of function-valued fields: the
outcome of `Device(name)` and of `ConfigureDevice(name, cfg)` for each
argument.  Every handler returns, besides its Go result, the list of provider
calls it made, in order; "the provider is not called" is the statement that
this trace is empty. -/

/-- The narrow capability interface of the Interface Control Provider. -/
structure WGClient where
  device : String → Except String wgtypes.Device
  configureDevice : String → wgtypes.Config → Option String

/-- One observed call to the provider. -/
inductive ProviderCall where
  | getDevice (name : String)
  | configureDevice (name : String) (cfg : wgtypes.Config)

/-- A non-nil Go `error` returned by a handler: either a `*jsonrpc.Error`
(from validation) or an error built with `fmt.Errorf` (provider failures and
re-parse slips). -/
inductive HandlerError where
  | rpc (e : jsonrpc.Error)
  | wrapped (msg : String)

/-- The `Error()` text of a handler error, as the dispatcher reads it. -/
def HandlerError.text : HandlerError → String
  | HandlerError.rpc e => e.errorText
  | HandlerError.wrapped m => m

/-- The `Server` struct: the provider handle and the configured device name. -/
structure Server where
  wg : WGClient
  deviceName : String

/-- `peer2rpc`: translate a device peer to its wire shape. -/
def peer2rpc (peer : wgtypes.Peer) : client.Peer :=
  { PublicKey := wgtypes.keyString peer.PublicKey
    HasPresharedKey := peer.PresharedKey != wgtypes.zeroKey
    Endpoint := match peer.Endpoint with
      | some e => e
      | none => "<nil>"
    PersistentKeepAlive :=
      if 0 < peer.PersistentKeepaliveInterval.ns then peer.PersistentKeepaliveInterval.render
      else ""
    LastHandshake := peer.LastHandshakeTime
    ReceiveBytes := peer.ReceiveBytes
    TransmitBytes := peer.TransmitBytes
    AllowedIPs := peer.AllowedIPs
    ProtocolVersion := peer.ProtocolVersion }

/-- `Server.GetDeviceInfo`: query the device, translate the snapshot.  The
request parameter is ignored by the source. -/
def Server.GetDeviceInfo (s : Server) (_req : Option client.GetDeviceInfoRequest) :
    Except HandlerError client.GetDeviceInfoResponse × List ProviderCall :=
  match s.wg.device s.deviceName with
  | Except.error msg =>
    (Except.error (HandlerError.wrapped ("could not get WireGuard device: " ++ msg)),
      [ProviderCall.getDevice s.deviceName])
  | Except.ok dev =>
    (Except.ok
      { Device := some
          { Name := dev.Name, Typ := dev.Typ, PublicKey := wgtypes.keyString dev.PublicKey,
            ListenPort := dev.ListenPort, FirewallMark := dev.FirewallMark,
            NumPeers := dev.Peers.length } },
      [ProviderCall.getDevice s.deviceName])

/-- `validateListPeersRequest`: nil request, then negative limit, then
negative offset. -/
def validateListPeersRequest : Option client.ListPeersRequest → Option jsonrpc.Error
  | none => some (jsonrpc.InvalidParams "request body required" none)
  | some req =>
    if req.Limit < 0 then some (jsonrpc.InvalidParams "limit must be positive integer" none)
    else if req.Offset < 0 then some (jsonrpc.InvalidParams "offset must be positive integer" none)
    else none

/-- `Server.ListPeers`: validate, query the device, translate every peer in
order (the Go loop appending `peer2rpc` of each peer is `List.map`).  The
`limit`/`offset` fields are not consulted past validation (the source defers
pagination with a TODO). -/
def Server.ListPeers (s : Server) (oreq : Option client.ListPeersRequest) :
    Except HandlerError client.ListPeersResponse × List ProviderCall :=
  match validateListPeersRequest oreq with
  | some e => (Except.error (HandlerError.rpc e), [])
  | none =>
    match s.wg.device s.deviceName with
    | Except.error msg =>
      (Except.error (HandlerError.wrapped ("could not get WireGuard device: " ++ msg)),
        [ProviderCall.getDevice s.deviceName])
    | Except.ok dev =>
      (Except.ok { Peers := dev.Peers.map peer2rpc }, [ProviderCall.getDevice s.deviceName])

/-- `validateGetPeerRequest`: nil request, empty key, 44-byte length guard,
then the binary decode.  Every failure is an InvalidParams error. -/
def validateGetPeerRequest : Option client.GetPeerRequest → Option jsonrpc.Error
  | none => some (jsonrpc.InvalidParams "request body required" none)
  | some req =>
    if req.PublicKey = "" then some (jsonrpc.InvalidParams "public key is required" none)
    else if req.PublicKey.utf8ByteSize ≠ 44 then
      some (jsonrpc.InvalidParams "malformed public key" none)
    else
      match wgtypes.ParseKey req.PublicKey with
      | Except.error msg => some (jsonrpc.InvalidParams ("invalid public key: " ++ msg) none)
      | Except.ok _ => none

/-- The search loop of `Server.GetPeer`: first peer whose key is byte-equal. -/
def firstMatch (peers : List wgtypes.Peer) (k : wgtypes.Key) : Option wgtypes.Peer :=
  peers.find? (fun p => decide (p.PublicKey = k))

/-- `Server.GetPeer`: validate, query the device, re-parse the key, return
the first byte-exact match translated — or an empty (successful) response
when no peer matches.  The nil-request arm after a passed validation is
unreachable (validation rejects nil) and mirrors the Go code's reliance on
that fact. -/
def Server.GetPeer (s : Server) (oreq : Option client.GetPeerRequest) :
    Except HandlerError client.GetPeerResponse × List ProviderCall :=
  match validateGetPeerRequest oreq with
  | some e => (Except.error (HandlerError.rpc e), [])
  | none =>
    match oreq with
    | none => (Except.error (HandlerError.rpc (jsonrpc.InvalidParams "request body required" none)), [])
    | some req =>
      match s.wg.device s.deviceName with
      | Except.error msg =>
        (Except.error (HandlerError.wrapped ("could not get WireGuard device: " ++ msg)),
          [ProviderCall.getDevice s.deviceName])
      | Except.ok dev =>
        match wgtypes.ParseKey req.PublicKey with
        | Except.error msg =>
          (Except.error (HandlerError.rpc (jsonrpc.InvalidParams ("invalid public key: " ++ msg) none)),
            [ProviderCall.getDevice s.deviceName])
        | Except.ok publicKey =>
          match firstMatch dev.Peers publicKey with
          | some peer =>
            (Except.ok { Peer := some (peer2rpc peer) }, [ProviderCall.getDevice s.deviceName])
          | none => (Except.ok { Peer := none }, [ProviderCall.getDevice s.deviceName])

/-- Go's `%q` on the strings at hand (no characters needing escapes are
produced by the claims; escaping of specials is not modelled). -/
def goQuote (s : String) : String :=
  "\"" ++ s ++ "\""

/-- The `allowed_ips` loop shared (textually identical, including the error
message `fmt.Sprintf("range %q is not valid: %s", allowedIP, err)`) by
`validateAddPeerRequest` and `Server.AddPeer`: parse each entry as a CIDR
range, failing on the first invalid entry, collecting the parsed networks. -/
def parseAllowedIPs : List String → Except jsonrpc.Error (List IPNet)
  | [] => Except.ok []
  | ip :: rest =>
    match ParseCIDR ip with
    | none =>
      Except.error (jsonrpc.InvalidParams
        ("range " ++ goQuote ip ++ " is not valid: " ++ "invalid CIDR address: " ++ ip) none)
    | some (_, aip) =>
      match parseAllowedIPs rest with
      | Except.error e => Except.error e
      | Except.ok tl => Except.ok (aip :: tl)

/-- `validateAddPeerRequest`: nil request; required public key (empty, length
guard, decode); optional preshared key (length guard, decode); optional
endpoint (resolution); optional keep-alive (duration parse); every
`allowed_ips` entry (CIDR parse).  Check order follows the source. -/
def validateAddPeerRequest (env : StdEnv) : Option client.AddPeerRequest → Option jsonrpc.Error
  | none => some (jsonrpc.InvalidParams "request body required" none)
  | some req =>
    let checkAllowed : Option jsonrpc.Error :=
      match parseAllowedIPs req.AllowedIPs with
      | Except.error e => some e
      | Except.ok _ => none
    let checkKeepAlive : Option jsonrpc.Error :=
      if req.PersistentKeepAlive ≠ "" then
        match env.parseDuration req.PersistentKeepAlive with
        | Except.error msg => some (jsonrpc.InvalidParams ("invalid keepalive: " ++ msg) none)
        | Except.ok _ => checkAllowed
      else checkAllowed
    let checkEndpoint : Option jsonrpc.Error :=
      if req.Endpoint ≠ "" then
        match env.resolveUDPAddr req.Endpoint with
        | Except.error msg => some (jsonrpc.InvalidParams ("invalid endpoint: " ++ msg) none)
        | Except.ok _ => checkKeepAlive
      else checkKeepAlive
    let checkPreshared : Option jsonrpc.Error :=
      if req.PresharedKey ≠ "" then
        if req.PresharedKey.utf8ByteSize ≠ 44 then
          some (jsonrpc.InvalidParams "malformed preshared key" none)
        else
          match wgtypes.ParseKey req.PresharedKey with
          | Except.error msg => some (jsonrpc.InvalidParams ("invalid preshared key: " ++ msg) none)
          | Except.ok _ => checkEndpoint
      else checkEndpoint
    if req.PublicKey = "" then some (jsonrpc.InvalidParams "public key is required" none)
    else if req.PublicKey.utf8ByteSize ≠ 44 then
      some (jsonrpc.InvalidParams "malformed public key" none)
    else
      match wgtypes.ParseKey req.PublicKey with
      | Except.error msg => some (jsonrpc.InvalidParams ("invalid public key: " ++ msg) none)
      | Except.ok _ => checkPreshared

/-- `Server.AddPeer`: validate; on `ValidateOnly` return `&AddPeerResponse{}`
(whose `OK` is false) without touching the provider; otherwise re-parse and
re-resolve every field into a `wgtypes.PeerConfig` and submit it via
`ConfigureDevice`, answering `OK: true` on success.  The nil-request arm
after a passed validation is unreachable (validation rejects nil). -/
def Server.AddPeer (env : StdEnv) (s : Server) (oreq : Option client.AddPeerRequest) :
    Except HandlerError client.AddPeerResponse × List ProviderCall :=
  match validateAddPeerRequest env oreq with
  | some e => (Except.error (HandlerError.rpc e), [])
  | none =>
    match oreq with
    | none => (Except.error (HandlerError.rpc (jsonrpc.InvalidParams "request body required" none)), [])
    | some req =>
      if req.ValidateOnly then (Except.ok {}, [])
      else
        match wgtypes.ParseKey req.PublicKey with
        | Except.error msg =>
          (Except.error (HandlerError.rpc (jsonrpc.InvalidParams ("invalid public key: " ++ msg) none)), [])
        | Except.ok publicKey =>
          match
            (if req.PresharedKey ≠ "" then
              match wgtypes.ParseKey req.PresharedKey with
              | Except.error msg =>
                Except.error (jsonrpc.InvalidParams ("invalid preshared key: " ++ msg) none)
              | Except.ok pk => Except.ok (some pk)
            else Except.ok none : Except jsonrpc.Error (Option wgtypes.Key)) with
          | Except.error e => (Except.error (HandlerError.rpc e), [])
          | Except.ok psk =>
            match
              (if req.Endpoint ≠ "" then
                match env.resolveUDPAddr req.Endpoint with
                | Except.error msg =>
                  Except.error (jsonrpc.InvalidParams ("invalid endpoint: " ++ msg) none)
                | Except.ok addr => Except.ok (some addr)
              else Except.ok none : Except jsonrpc.Error (Option String)) with
            | Except.error e => (Except.error (HandlerError.rpc e), [])
            | Except.ok ep =>
              match
                (if req.PersistentKeepAlive ≠ "" then
                  match env.parseDuration req.PersistentKeepAlive with
                  | Except.error msg =>
                    Except.error (jsonrpc.InvalidParams ("invalid keepalive: " ++ msg) none)
                  | Except.ok d => Except.ok (some d)
                else Except.ok none : Except jsonrpc.Error (Option Int)) with
              | Except.error e => (Except.error (HandlerError.rpc e), [])
              | Except.ok ka =>
                match parseAllowedIPs req.AllowedIPs with
                | Except.error e => (Except.error (HandlerError.rpc e), [])
                | Except.ok aips =>
                  let peer : wgtypes.PeerConfig :=
                    { PublicKey := publicKey, PresharedKey := psk, Endpoint := ep,
                      PersistentKeepaliveInterval := ka, AllowedIPs := aips }
                  let cfg : wgtypes.Config := { Peers := [peer] }
                  match s.wg.configureDevice s.deviceName cfg with
                  | some msg =>
                    (Except.error (HandlerError.wrapped ("could not configure WireGuard device: " ++ msg)),
                      [ProviderCall.configureDevice s.deviceName cfg])
                  | none =>
                    (Except.ok { OK := true }, [ProviderCall.configureDevice s.deviceName cfg])

/-- `validateRemovePeerRequest`: identical key checks to `GetPeer`. -/
def validateRemovePeerRequest : Option client.RemovePeerRequest → Option jsonrpc.Error
  | none => some (jsonrpc.InvalidParams "request body required" none)
  | some req =>
    if req.PublicKey = "" then some (jsonrpc.InvalidParams "public key is required" none)
    else if req.PublicKey.utf8ByteSize ≠ 44 then
      some (jsonrpc.InvalidParams "malformed public key" none)
    else
      match wgtypes.ParseKey req.PublicKey with
      | Except.error msg => some (jsonrpc.InvalidParams ("invalid public key: " ++ msg) none)
      | Except.ok _ => none

/-- `Server.RemovePeer`: validate; `ValidateOnly` short-circuits with
`&RemovePeerResponse{}` (`OK` false) and no provider call; otherwise submit a
removal `PeerConfig` keyed by the public key.  The re-parse failure arm uses
`fmt.Errorf` (a wrapped error), unlike `AddPeer`'s `InvalidParams` — it is
unreachable since validation already parsed the key. -/
def Server.RemovePeer (s : Server) (oreq : Option client.RemovePeerRequest) :
    Except HandlerError client.RemovePeerResponse × List ProviderCall :=
  match validateRemovePeerRequest oreq with
  | some e => (Except.error (HandlerError.rpc e), [])
  | none =>
    match oreq with
    | none => (Except.error (HandlerError.rpc (jsonrpc.InvalidParams "request body required" none)), [])
    | some req =>
      if req.ValidateOnly then (Except.ok {}, [])
      else
        match wgtypes.ParseKey req.PublicKey with
        | Except.error msg =>
          (Except.error (HandlerError.wrapped ("invalid public key: " ++ msg)), [])
        | Except.ok publicKey =>
          let peer : wgtypes.PeerConfig := { PublicKey := publicKey, Remove := true }
          let cfg : wgtypes.Config := { Peers := [peer] }
          match s.wg.configureDevice s.deviceName cfg with
          | some msg =>
            (Except.error (HandlerError.wrapped ("could not configure WireGuard device: " ++ msg)),
              [ProviderCall.configureDevice s.deviceName cfg])
          | none => (Except.ok { OK := true }, [ProviderCall.configureDevice s.deviceName cfg])

/-! ## The dispatcher (Server.ServeJSONRPC)

`json.Unmarshal(r.Params, &arg)` is modelled per target type: a raw params
payload is, for each of the four parameter-taking methods, either a decode
error message or the decoded request value.  The `GetDeviceInfo` arm of the
source never touches `r.Params`. -/

/-- The raw `params` payload of a request, seen through `json.Unmarshal` at
each of the four target types. -/
structure RawParams where
  decodeListPeers : Except String client.ListPeersRequest
  decodeGetPeer : Except String client.GetPeerRequest
  decodeAddPeer : Except String client.AddPeerRequest
  decodeRemovePeer : Except String client.RemovePeerRequest

/-- A decoded JSON-RPC request envelope (`jsonrpc.Request`). -/
structure Request where
  version : String
  method : String
  params : RawParams
  id : String

/-- `Server.ServeJSONRPC`: route on the method name (Go's `switch` tests the
cases in order, modelled as a conditional chain); unmarshal failures become
ParseError; a non-nil handler error `err` becomes
`jsonrpc.ServerError(-32000, err.Error(), nil)`; an unknown method becomes
MethodNotFound.  Returns the value written to the response writer and the
provider-call trace. -/
def Server.ServeJSONRPC (env : StdEnv) (s : Server) (r : Request) :
    jsonrpc.WriteArg × List ProviderCall :=
  if r.method = "GetDeviceInfo" then
    match s.GetDeviceInfo (some {}) with
    | (Except.ok res, t) => (jsonrpc.WriteArg.value (jsonrpc.RPCResult.deviceInfo res), t)
    | (Except.error e, t) =>
      (jsonrpc.WriteArg.rpcErr (jsonrpc.ServerError (-32000) e.text none), t)
  else if r.method = "ListPeers" then
    match r.params.decodeListPeers with
    | Except.error msg => (jsonrpc.WriteArg.rpcErr (jsonrpc.ParseError msg none), [])
    | Except.ok arg =>
      match s.ListPeers (some arg) with
      | (Except.ok res, t) => (jsonrpc.WriteArg.value (jsonrpc.RPCResult.listPeers res), t)
      | (Except.error e, t) =>
        (jsonrpc.WriteArg.rpcErr (jsonrpc.ServerError (-32000) e.text none), t)
  else if r.method = "GetPeer" then
    match r.params.decodeGetPeer with
    | Except.error msg => (jsonrpc.WriteArg.rpcErr (jsonrpc.ParseError msg none), [])
    | Except.ok arg =>
      match s.GetPeer (some arg) with
      | (Except.ok res, t) => (jsonrpc.WriteArg.value (jsonrpc.RPCResult.getPeer res), t)
      | (Except.error e, t) =>
        (jsonrpc.WriteArg.rpcErr (jsonrpc.ServerError (-32000) e.text none), t)
  else if r.method = "AddPeer" then
    match r.params.decodeAddPeer with
    | Except.error msg => (jsonrpc.WriteArg.rpcErr (jsonrpc.ParseError msg none), [])
    | Except.ok arg =>
      match Server.AddPeer env s (some arg) with
      | (Except.ok res, t) => (jsonrpc.WriteArg.value (jsonrpc.RPCResult.addPeer res), t)
      | (Except.error e, t) =>
        (jsonrpc.WriteArg.rpcErr (jsonrpc.ServerError (-32000) e.text none), t)
  else if r.method = "RemovePeer" then
    match r.params.decodeRemovePeer with
    | Except.error msg => (jsonrpc.WriteArg.rpcErr (jsonrpc.ParseError msg none), [])
    | Except.ok arg =>
      match s.RemovePeer (some arg) with
      | (Except.ok res, t) => (jsonrpc.WriteArg.value (jsonrpc.RPCResult.removePeer res), t)
      | (Except.error e, t) =>
        (jsonrpc.WriteArg.rpcErr (jsonrpc.ServerError (-32000) e.text none), t)
  else (jsonrpc.WriteArg.rpcErr (jsonrpc.MethodNotFound "method not found" none), [])

/-- The well-formedness condition the spec states for wire keys: a valid
44-character (equivalently, with Go's byte lengths, 44-byte) base64 string
that decodes to exactly 32 raw bytes. -/
def wellFormedKey (s : String) : Prop :=
  s.utf8ByteSize = 44 ∧ ∃ bs, base64StdDecode s = some bs ∧ bs.length = 32

/-! ## Shared concrete fixtures for witnesses -/

/-- The 44-character base64 encoding of the 32 zero bytes. -/
def zeroKeyStr : String := "AAAAAAAAAAAAAAAAAAAAAAAAAAAAAAAAAAAAAAAAAAA="

/-- An environment whose resolver and duration parser reject everything; the
witness requests leave the optional endpoint and keep-alive fields empty, so
it is never consulted. -/
def envWit : StdEnv :=
  { resolveUDPAddr := fun _ => Except.error "unused"
    parseDuration := fun _ => Except.error "unused" }

/-- A provider with no devices: every query fails, every configuration
succeeds. -/
def srvNoDev : Server :=
  { wg := { device := fun _ => Except.error "no such device"
            configureDevice := fun _ _ => none }
    deviceName := "wg0" }

/-- A sample device peer holding the zero key. -/
def peerWit : wgtypes.Peer :=
  { PublicKey := wgtypes.zeroKey, PresharedKey := wgtypes.zeroKey, Endpoint := none
    PersistentKeepaliveInterval := { ns := 0, render := "" }, LastHandshakeTime := 0
    ReceiveBytes := 0, TransmitBytes := 0, AllowedIPs := [], ProtocolVersion := 1 }

/-- A second valid 44-character key string, distinct from the zero key. -/
def otherKeyStr : String := "Ws1HZ0kSNEUy+ktWXnUmreyJanBkCHmS3pBiWtPRFWI="

/-- The 32 bytes `otherKeyStr` decodes to. -/
def otherKey : wgtypes.Key :=
  [90, 205, 71, 103, 73, 18, 52, 69, 50, 250, 75, 86, 94, 117, 38, 173,
   236, 137, 106, 112, 100, 8, 121, 146, 222, 144, 98, 90, 211, 209, 21, 98]

/-- The device `srvOneDev` serves. -/
def devWit : wgtypes.Device :=
  { Name := "wg0", Typ := "kernel", PublicKey := wgtypes.zeroKey
    ListenPort := 51820, FirewallMark := 0, Peers := [peerWit] }

/-- A provider exposing one device `wg0` with a single peer. -/
def srvOneDev : Server :=
  { wg := { device := fun _ => Except.ok devWit
            configureDevice := fun _ _ => none }
    deviceName := "wg0" }

/-- A validate-only AddPeer request for the zero key, with every optional
field empty. -/
def addReqVO : client.AddPeerRequest :=
  { PublicKey := zeroKeyStr, PresharedKey := "", Endpoint := ""
    PersistentKeepAlive := "", AllowedIPs := [], ValidateOnly := true }

/-- The same request executed for real. -/
def addReqGo : client.AddPeerRequest :=
  { addReqVO with ValidateOnly := false }

/-- A validate-only RemovePeer request for the zero key. -/
def remReqVO : client.RemovePeerRequest :=
  { PublicKey := zeroKeyStr, ValidateOnly := true }

/-- The same removal executed for real. -/
def remReqGo : client.RemovePeerRequest :=
  { PublicKey := zeroKeyStr, ValidateOnly := false }

/-- The configuration `addReqGo` submits. -/
def cfgAddWit : wgtypes.Config :=
  { Peers := [{ PublicKey := wgtypes.zeroKey }] }

/-- The configuration `remReqGo` submits. -/
def cfgRemWit : wgtypes.Config :=
  { Peers := [{ PublicKey := wgtypes.zeroKey, Remove := true }] }

/-! ## C5 — ServerError construction -/

/-- C5 counterexample: constructing a ServerError with the out-of-range code
0 is not rejected — it silently yields an error value carrying code 0,
contradicting the claim that out-of-range construction is rejected by a
defensive assertion. -/
theorem c5_serverError_out_of_range_accepted :
    jsonrpc.ServerError 0 "boom" none = { Code := 0, Message := "boom", Data := none } := rfl

/-- C5 (amended): `ServerError` performs no range check at all; for every
code `c` — inside or outside -32099..-32000 — it returns an error carrying
exactly code `c`, the given message and the given data payload. -/
theorem c5_serverError_carries_given_code (c : Int) (msg : String) (data : Option String) :
    (jsonrpc.ServerError c msg data).Code = c ∧
    (jsonrpc.ServerError c msg data).Message = msg ∧
    (jsonrpc.ServerError c msg data).Data = data :=
  ⟨rfl, rfl, rfl⟩

/-- Witness for `c5_serverError_carries_given_code` at the boundary codes of
the documented range. -/
theorem c5_serverError_witness :
    (jsonrpc.ServerError (-32000) "provider failed" none).Code = -32000 ∧
    (jsonrpc.ServerError (-32000) "provider failed" none).Message = "provider failed" ∧
    (jsonrpc.ServerError (-32000) "provider failed" none).Data = none :=
  c5_serverError_carries_given_code (-32000) "provider failed" none

/-! ## C4 — response write-once discipline -/

/-- C4 counterexample: on a response whose result is already set (and whose
error is not), a second attempt to set a result does NOT fail — it succeeds
and silently replaces the previously written result, contradicting the
claimed write-once invariant. -/
theorem c4_second_write_overwrites :
    jsonrpc.response.Write
      { Version := "2.0", Result := some (jsonrpc.RPCResult.addPeer { OK := true })
        Err := none, ID := "1" }
      (jsonrpc.WriteArg.value (jsonrpc.RPCResult.addPeer { OK := false })) =
    Except.ok
      { Version := "2.0", Result := some (jsonrpc.RPCResult.addPeer { OK := false })
        Err := none, ID := "1" } := rfl

/-- C4 (amended): `response.Write` fails — with the plain error value
"response already written" produced by `fmt.Errorf`, not with an InternalError
— exactly when BOTH a result and an error have already been set; when at most
one of them is set, the write succeeds and stores the argument, overwriting
any previously written value of the field it writes to. -/
theorem c4_write_guard (r : jsonrpc.response) (a : jsonrpc.WriteArg) :
    (r.Result ≠ none ∧ r.Err ≠ none → r.Write a = Except.error "response already written")
    ∧ (r.Result = none ∨ r.Err = none →
        r.Write a = Except.ok
          (match a with
           | jsonrpc.WriteArg.rpcErr e => { r with Err := some e }
           | jsonrpc.WriteArg.goErr m => { r with Err := some (jsonrpc.InternalError m none) }
           | jsonrpc.WriteArg.value v => { r with Result := some v })) := by
  constructor
  · rintro ⟨h1, h2⟩
    rw [Option.ne_none_iff_isSome] at h1 h2
    simp [jsonrpc.response.Write, h1, h2]
  · intro h
    have hcond : ¬(r.Result.isSome && r.Err.isSome) = true := by
      rcases h with h | h <;> simp [h]
    rw [jsonrpc.response.Write.eq_def, if_neg hcond]
    cases a <;> rfl

/-- Witness for `c4_write_guard`: a response with both fields set rejects a
further write, and a fresh response accepts one. -/
theorem c4_write_guard_witness :
    jsonrpc.response.Write
      { Version := "2.0", Result := some (jsonrpc.RPCResult.addPeer { OK := true })
        Err := some (jsonrpc.InternalError "x" none), ID := "1" }
      (jsonrpc.WriteArg.goErr "again") = Except.error "response already written"
    ∧ jsonrpc.response.Write
      { Version := "2.0", Result := none, Err := none, ID := "2" }
      (jsonrpc.WriteArg.value (jsonrpc.RPCResult.removePeer { OK := true })) =
      Except.ok { Version := "2.0"
                  Result := some (jsonrpc.RPCResult.removePeer { OK := true })
                  Err := none, ID := "2" } :=
  ⟨(c4_write_guard _ _).1 ⟨by simp, by simp⟩,
   (c4_write_guard _ _).2 (Or.inl rfl)⟩

/-! ## C6 — ListPeers pagination validation -/

/-- C6: a ListPeers request with a negative limit or offset fails with an
InvalidParams (-32602) error and the provider is never queried (empty call
trace); a request with both fields non-negative (absent JSON fields decode to
0) passes validation. -/
theorem c6_listPeers_pagination (s : Server) (req : client.ListPeersRequest) :
    ((req.Limit < 0 ∨ req.Offset < 0) →
      ∃ e, s.ListPeers (some req) = (Except.error (HandlerError.rpc e), []) ∧ e.Code = -32602)
    ∧ (0 ≤ req.Limit ∧ 0 ≤ req.Offset → validateListPeersRequest (some req) = none) := by
  constructor
  · intro h
    by_cases hl : req.Limit < 0
    · exact ⟨jsonrpc.InvalidParams "limit must be positive integer" none,
        by simp [Server.ListPeers, validateListPeersRequest, hl], rfl⟩
    · have ho : req.Offset < 0 := h.resolve_left hl
      exact ⟨jsonrpc.InvalidParams "offset must be positive integer" none,
        by simp [Server.ListPeers, validateListPeersRequest, hl, ho], rfl⟩
  · rintro ⟨h1, h2⟩
    simp [validateListPeersRequest, not_lt.mpr h1, not_lt.mpr h2]

/-- Witness for `c6_listPeers_pagination`: a request with limit -1 is
rejected without a provider call, and one with limit 0, offset 0 validates. -/
theorem c6_listPeers_pagination_witness :
    (∃ e, srvNoDev.ListPeers (some { Limit := -1, Offset := 0 }) =
        (Except.error (HandlerError.rpc e), []) ∧ e.Code = -32602)
    ∧ validateListPeersRequest (some { Limit := 0, Offset := 0 }) = none :=
  ⟨(c6_listPeers_pagination srvNoDev { Limit := -1, Offset := 0 }).1 (Or.inl (by decide)),
   (c6_listPeers_pagination srvNoDev { Limit := 0, Offset := 0 }).2 ⟨by decide, by decide⟩⟩

/-! ## C8 — ListPeers returns the full peer list -/

/-- C8: for every validated ListPeers request and every device the provider
returns, the response is exactly the translation of all of the device's peers
in provider order — `limit` and `offset` are never applied to slice it. -/
theorem c8_listPeers_full_list (s : Server) (req : client.ListPeersRequest)
    (dev : wgtypes.Device)
    (hv : validateListPeersRequest (some req) = none)
    (hd : s.wg.device s.deviceName = Except.ok dev) :
    s.ListPeers (some req) =
      (Except.ok { Peers := dev.Peers.map peer2rpc }, [ProviderCall.getDevice s.deviceName]) := by
  simp [Server.ListPeers, hv, hd]

/-- Witness for `c8_listPeers_full_list`: a device with one peer and a
request with limit 1, offset 1 still yields the full (one-element) translated
list. -/
theorem c8_listPeers_full_list_witness :
    srvOneDev.ListPeers (some { Limit := 1, Offset := 1 }) =
      (Except.ok { Peers := [peerWit].map peer2rpc }, [ProviderCall.getDevice "wg0"]) :=
  c8_listPeers_full_list srvOneDev { Limit := 1, Offset := 1 } devWit rfl rfl

/-! ## C1 — validate-only semantics and the ok field -/

/-- C1: a validated AddPeer or RemovePeer request with `ValidateOnly` set
returns success with `OK = false` and an empty provider-call trace (in
particular no `ConfigureDevice` call); a non-validate-only request that
succeeds always reports `OK = true`. -/
theorem c1_validate_only (env : StdEnv) (s : Server)
    (areq : client.AddPeerRequest) (rreq : client.RemovePeerRequest) :
    (validateAddPeerRequest env (some areq) = none → areq.ValidateOnly = true →
      Server.AddPeer env s (some areq) = (Except.ok { OK := false }, []))
    ∧ (∀ resp t, areq.ValidateOnly = false →
        Server.AddPeer env s (some areq) = (Except.ok resp, t) → resp.OK = true)
    ∧ (validateRemovePeerRequest (some rreq) = none → rreq.ValidateOnly = true →
        Server.RemovePeer s (some rreq) = (Except.ok { OK := false }, []))
    ∧ (∀ resp t, rreq.ValidateOnly = false →
        Server.RemovePeer s (some rreq) = (Except.ok resp, t) → resp.OK = true) := by
  refine ⟨fun hv hvo => ?_, fun resp t hvo h => ?_, fun hv hvo => ?_, fun resp t hvo h => ?_⟩
  · simp [Server.AddPeer, hv, hvo]
  · rw [Server.AddPeer.eq_def] at h
    split at h
    · simp at h
    · split at h
      · simp at h
      · rename_i req heq
        injection heq with he
        subst he
        rw [hvo] at h
        simp only [Bool.false_eq_true, if_false] at h
        split at h
        · simp at h
        · split at h
          · simp at h
          · split at h
            · simp at h
            · split at h
              · simp at h
              · split at h
                · simp at h
                · split at h
                  · simp at h
                  · simp at h
                    exact h.1 ▸ rfl
  · simp [Server.RemovePeer, hv, hvo]
  · rw [Server.RemovePeer.eq_def] at h
    split at h
    · simp at h
    · split at h
      · simp at h
      · rename_i req heq
        injection heq with he
        subst he
        rw [hvo] at h
        simp only [Bool.false_eq_true, if_false] at h
        split at h
        · simp at h
        · split at h
          · simp at h
          · simp at h
            exact h.1 ▸ rfl

/-- Witness for `c1_validate_only`: the concrete validate-only requests
return `OK = false` with no provider call, and the concrete real executions
report `OK = true`. -/
theorem c1_validate_only_witness :
    Server.AddPeer envWit srvNoDev (some addReqVO) = (Except.ok { OK := false }, [])
    ∧ ({ OK := true } : client.AddPeerResponse).OK = true
    ∧ Server.RemovePeer srvNoDev (some remReqVO) = (Except.ok { OK := false }, [])
    ∧ ({ OK := true } : client.RemovePeerResponse).OK = true :=
  ⟨(c1_validate_only envWit srvNoDev addReqVO remReqVO).1 rfl rfl,
   (c1_validate_only envWit srvNoDev addReqGo remReqVO).2.1 { OK := true }
     [ProviderCall.configureDevice "wg0" cfgAddWit] rfl rfl,
   (c1_validate_only envWit srvNoDev addReqVO remReqVO).2.2.1 rfl rfl,
   (c1_validate_only envWit srvNoDev addReqVO remReqGo).2.2.2 { OK := true }
     [ProviderCall.configureDevice "wg0" cfgRemWit] rfl rfl⟩

/-! ## C10 — GetDeviceInfo ignores the params payload -/

/-- C10: the dispatcher never deserializes the params payload of a
`GetDeviceInfo` request — it invokes the handler with an empty request — so
two requests differing only in their params field produce the same outcome
and the same provider-call trace. -/
theorem c10_getDeviceInfo_ignores_params (env : StdEnv) (s : Server) (r : Request)
    (p : RawParams) (hm : r.method = "GetDeviceInfo") :
    Server.ServeJSONRPC env s { r with params := p } = Server.ServeJSONRPC env s r := by
  obtain ⟨ver, m, q, id⟩ := r
  simp only at hm
  subst hm
  rfl

/-- Witness for `c10_getDeviceInfo_ignores_params`: two concrete
`GetDeviceInfo` requests whose params decode differently (one would parse for
every method, the other for none) dispatch identically. -/
theorem c10_getDeviceInfo_ignores_params_witness :
    Server.ServeJSONRPC envWit srvNoDev
      { version := "2.0", method := "GetDeviceInfo"
        params := { decodeListPeers := Except.ok { Limit := 0, Offset := 0 }
                    decodeGetPeer := Except.ok { PublicKey := zeroKeyStr }
                    decodeAddPeer := Except.ok addReqVO
                    decodeRemovePeer := Except.ok remReqVO }
        id := "7" } =
    Server.ServeJSONRPC envWit srvNoDev
      { version := "2.0", method := "GetDeviceInfo"
        params := { decodeListPeers := Except.error "unexpected end of JSON input"
                    decodeGetPeer := Except.error "unexpected end of JSON input"
                    decodeAddPeer := Except.error "unexpected end of JSON input"
                    decodeRemovePeer := Except.error "unexpected end of JSON input" }
        id := "7" } :=
  c10_getDeviceInfo_ignores_params envWit srvNoDev
    { version := "2.0", method := "GetDeviceInfo"
      params := { decodeListPeers := Except.error "unexpected end of JSON input"
                  decodeGetPeer := Except.error "unexpected end of JSON input"
                  decodeAddPeer := Except.error "unexpected end of JSON input"
                  decodeRemovePeer := Except.error "unexpected end of JSON input" }
      id := "7" }
    { decodeListPeers := Except.ok { Limit := 0, Offset := 0 }
      decodeGetPeer := Except.ok { PublicKey := zeroKeyStr }
      decodeAddPeer := Except.ok addReqVO
      decodeRemovePeer := Except.ok remReqVO }
    rfl

/-! ## C9 — every handler failure surfaces as ServerError -32000 -/

/-- C9: for each registered method, whenever the routed handler returns a
non-nil error — including validation failures it constructed as
InvalidParams (-32602) — the dispatcher writes
`jsonrpc.ServerError(-32000, err.Error(), nil)`, so every handler-level
failure reaches the wire with code -32000 and the handler error's `Error()`
text as message. -/
theorem c9_handler_errors_become_minus32000 (env : StdEnv) (s : Server) (r : Request) :
    (∀ e t, r.method = "GetDeviceInfo" →
      s.GetDeviceInfo (some {}) = (Except.error e, t) →
      Server.ServeJSONRPC env s r =
        (jsonrpc.WriteArg.rpcErr (jsonrpc.ServerError (-32000) e.text none), t))
    ∧ (∀ arg e t, r.method = "ListPeers" → r.params.decodeListPeers = Except.ok arg →
        s.ListPeers (some arg) = (Except.error e, t) →
        Server.ServeJSONRPC env s r =
          (jsonrpc.WriteArg.rpcErr (jsonrpc.ServerError (-32000) e.text none), t))
    ∧ (∀ arg e t, r.method = "GetPeer" → r.params.decodeGetPeer = Except.ok arg →
        s.GetPeer (some arg) = (Except.error e, t) →
        Server.ServeJSONRPC env s r =
          (jsonrpc.WriteArg.rpcErr (jsonrpc.ServerError (-32000) e.text none), t))
    ∧ (∀ arg e t, r.method = "AddPeer" → r.params.decodeAddPeer = Except.ok arg →
        Server.AddPeer env s (some arg) = (Except.error e, t) →
        Server.ServeJSONRPC env s r =
          (jsonrpc.WriteArg.rpcErr (jsonrpc.ServerError (-32000) e.text none), t))
    ∧ (∀ arg e t, r.method = "RemovePeer" → r.params.decodeRemovePeer = Except.ok arg →
        s.RemovePeer (some arg) = (Except.error e, t) →
        Server.ServeJSONRPC env s r =
          (jsonrpc.WriteArg.rpcErr (jsonrpc.ServerError (-32000) e.text none), t)) := by
  obtain ⟨ver, m, p, id⟩ := r
  refine ⟨fun e t hm hh => ?_, fun arg e t hm hp hh => ?_, fun arg e t hm hp hh => ?_,
    fun arg e t hm hp hh => ?_, fun arg e t hm hp hh => ?_⟩
  · simp only at hm
    subst hm
    simp [Server.ServeJSONRPC, hh]
  all_goals
    simp only at hm hp
    subst hm
    simp [Server.ServeJSONRPC, hp, hh]

/-- Witness for `c9_handler_errors_become_minus32000`: a GetPeer request with
a malformed key fails handler validation with InvalidParams (-32602), and the
dispatcher surfaces it as a ServerError -32000 carrying the `Error()` text. -/
theorem c9_handler_errors_become_minus32000_witness :
    Server.ServeJSONRPC envWit srvNoDev
      { version := "2.0", method := "GetPeer"
        params := { decodeListPeers := Except.error "x"
                    decodeGetPeer := Except.ok { PublicKey := "short" }
                    decodeAddPeer := Except.error "x"
                    decodeRemovePeer := Except.error "x" }
        id := "9" } =
      (jsonrpc.WriteArg.rpcErr
        (jsonrpc.ServerError (-32000)
          (HandlerError.rpc (jsonrpc.InvalidParams "malformed public key" none)).text none),
       []) :=
  (c9_handler_errors_become_minus32000 envWit srvNoDev
      { version := "2.0", method := "GetPeer"
        params := { decodeListPeers := Except.error "x"
                    decodeGetPeer := Except.ok { PublicKey := "short" }
                    decodeAddPeer := Except.error "x"
                    decodeRemovePeer := Except.error "x" }
        id := "9" }).2.2.1
    { PublicKey := "short" }
    (HandlerError.rpc (jsonrpc.InvalidParams "malformed public key" none)) []
    rfl rfl rfl

/-! ## Helper lemmas about key parsing and validation -/

theorem parseKey_ok_iff (s : String) (k : wgtypes.Key) :
    wgtypes.ParseKey s = Except.ok k ↔ base64StdDecode s = some k ∧ k.length = 32 := by
  constructor
  · intro h
    rw [wgtypes.ParseKey.eq_def] at h
    split at h
    · exact absurd h (by simp)
    · rename_i bs hb
      split at h
      · cases h
        exact ⟨hb, by assumption⟩
      · exact absurd h (by simp)
  · rintro ⟨hb, hl⟩
    simp [wgtypes.ParseKey, hb, hl]

theorem validateGetPeerRequest_none_iff (s : String) :
    validateGetPeerRequest (some { PublicKey := s }) = none ↔ wellFormedKey s := by
  constructor
  · intro h
    simp only [validateGetPeerRequest] at h
    split at h
    · exact absurd h (by simp)
    · split at h
      · exact absurd h (by simp)
      · rename_i h0 h44
        split at h
        · exact absurd h (by simp)
        · rename_i k hk
          rcases (parseKey_ok_iff s k).mp hk with ⟨hb, hl⟩
          exact ⟨by omega, k, hb, hl⟩
  · rintro ⟨h44, bs, hb, hl⟩
    have h0 : ¬ s = "" := by
      intro he
      rw [he] at h44
      exact absurd h44 (by decide)
    have hk : wgtypes.ParseKey s = Except.ok bs := (parseKey_ok_iff s bs).mpr ⟨hb, hl⟩
    simp [validateGetPeerRequest, h0, h44, hk]

theorem validateGetPeerRequest_some_code (s : String) (e : jsonrpc.Error)
    (h : validateGetPeerRequest (some { PublicKey := s }) = some e) : e.Code = -32602 := by
  simp only [validateGetPeerRequest] at h
  split at h
  · cases h; rfl
  · split at h
    · cases h; rfl
    · split at h
      · cases h; rfl
      · exact absurd h (by simp)

/-! ## C2 — GetPeer: not-found is success, match is byte-exact -/

/-- C2: for a GetPeer request whose key is well-formed (44 bytes, decoding to
32 bytes), once the provider returns a device: if no device peer's key is
byte-equal to the decoded key the handler returns success with an absent peer
field (never an error); if the search finds a byte-exact match it returns
that peer's translation. -/
theorem c2_getPeer_not_found_is_success (s : Server) (req : client.GetPeerRequest)
    (dev : wgtypes.Device) (k : wgtypes.Key)
    (hlen : req.PublicKey.utf8ByteSize = 44)
    (hkey : wgtypes.ParseKey req.PublicKey = Except.ok k)
    (hdev : s.wg.device s.deviceName = Except.ok dev) :
    ((∀ p ∈ dev.Peers, p.PublicKey ≠ k) →
      s.GetPeer (some req) = (Except.ok { Peer := none }, [ProviderCall.getDevice s.deviceName]))
    ∧ (∀ p, firstMatch dev.Peers k = some p →
      s.GetPeer (some req) =
        (Except.ok { Peer := some (peer2rpc p) }, [ProviderCall.getDevice s.deviceName])) := by
  obtain ⟨pk⟩ := req
  have hv : validateGetPeerRequest (some { PublicKey := pk }) = none :=
    (validateGetPeerRequest_none_iff pk).mpr ⟨hlen, k, (parseKey_ok_iff pk k).mp hkey⟩
  constructor
  · intro hno
    have hfm : firstMatch dev.Peers k = none := by
      simp only [firstMatch, List.find?_eq_none, decide_eq_true_eq]
      exact hno
    simp [Server.GetPeer, hv, hdev, hkey, hfm]
  · intro p hp
    simp [Server.GetPeer, hv, hdev, hkey, hp]

/-- Witness for `c2_getPeer_not_found_is_success`: on a device holding only
the zero-key peer, looking up a different well-formed key succeeds with an
absent peer, and looking up the zero key returns its translation. -/
theorem c2_getPeer_not_found_is_success_witness :
    srvOneDev.GetPeer (some { PublicKey := otherKeyStr }) =
      (Except.ok { Peer := none }, [ProviderCall.getDevice "wg0"])
    ∧ srvOneDev.GetPeer (some { PublicKey := zeroKeyStr }) =
      (Except.ok { Peer := some (peer2rpc peerWit) }, [ProviderCall.getDevice "wg0"]) :=
  ⟨(c2_getPeer_not_found_is_success srvOneDev { PublicKey := otherKeyStr } devWit otherKey
      rfl rfl (by rfl)).1 (by decide),
   (c2_getPeer_not_found_is_success srvOneDev { PublicKey := zeroKeyStr } devWit wgtypes.zeroKey
      rfl rfl (by rfl)).2 peerWit (by rfl)⟩

theorem parseAllowedIPs_error_code (l : List String) (e : jsonrpc.Error)
    (h : parseAllowedIPs l = Except.error e) : e.Code = -32602 := by
  induction l with
  | nil => simp [parseAllowedIPs] at h
  | cons ip rest ih =>
    simp only [parseAllowedIPs] at h
    split at h
    · cases h
      rfl
    · split at h
      · rename_i e2 heq
        cases h
        exact ih heq
      · cases h

theorem validateAddPeerRequest_some_code (env : StdEnv) (oreq : Option client.AddPeerRequest)
    (e : jsonrpc.Error) (h : validateAddPeerRequest env oreq = some e) : e.Code = -32602 := by
  cases oreq with
  | none =>
    simp only [validateAddPeerRequest] at h
    cases h
    rfl
  | some req =>
    simp only [validateAddPeerRequest] at h
    iterate 14 (all_goals try split at h)
    all_goals try (cases h <;> rfl)
    all_goals (rename_i heq; cases h; exact parseAllowedIPs_error_code _ _ heq)

/-! ## C3 — key validation: 44 characters and a 32-byte decode -/

/-- C3: public-key validation succeeds exactly on well-formed keys (valid
44-character base64 decoding to exactly 32 bytes); the preshared key, when
present, is held to the same rule; every failure — including a 44-character
string that fails to decode — is an InvalidParams (-32602) error, never an
InternalError (-32603). -/
theorem c3_key_validation (env : StdEnv) (s t : String) (ht : t ≠ "") :
    (validateGetPeerRequest (some { PublicKey := s }) = none ↔ wellFormedKey s)
    ∧ (∀ e, validateGetPeerRequest (some { PublicKey := s }) = some e → e.Code = -32602)
    ∧ (validateAddPeerRequest env
        (some { PublicKey := s, PresharedKey := t, Endpoint := ""
                PersistentKeepAlive := "", AllowedIPs := [], ValidateOnly := false }) = none
        ↔ (wellFormedKey s ∧ wellFormedKey t))
    ∧ (∀ e, validateAddPeerRequest env
        (some { PublicKey := s, PresharedKey := t, Endpoint := ""
                PersistentKeepAlive := "", AllowedIPs := [], ValidateOnly := false }) = some e →
        e.Code = -32602) := by
  refine ⟨validateGetPeerRequest_none_iff s, validateGetPeerRequest_some_code s, ?_,
    fun e h => validateAddPeerRequest_some_code env _ e h⟩
  constructor
  · intro h
    simp only [validateAddPeerRequest] at h
    split at h
    · exact absurd h (by simp)
    · split at h
      · exact absurd h (by simp)
      · rename_i h0 h44
        split at h
        · exact absurd h (by simp)
        · rename_i ks hks
          split at h
          · exact absurd h (by simp)
          · rename_i h44t
            split at h
            · exact absurd h (by simp)
            · rename_i kt hkt
              exact ⟨⟨by omega, ks, (parseKey_ok_iff s ks).mp hks⟩,
                ⟨by omega, kt, (parseKey_ok_iff t kt).mp hkt⟩⟩
  · rintro ⟨⟨h44s, ks, hbs, hls⟩, ⟨h44t, kt, hbt, hlt⟩⟩
    have h0s : ¬ s = "" := by
      intro he
      rw [he] at h44s
      exact absurd h44s (by decide)
    have hks : wgtypes.ParseKey s = Except.ok ks := (parseKey_ok_iff s ks).mpr ⟨hbs, hls⟩
    have hkt : wgtypes.ParseKey t = Except.ok kt := (parseKey_ok_iff t kt).mpr ⟨hbt, hlt⟩
    simp [validateAddPeerRequest, h0s, h44s, hks, ht, h44t, hkt, parseAllowedIPs]


/-- Witness for `c3_key_validation`: the zero key and a second real key
validate; a 44-character string of `!` fails the decode and is reported as
InvalidParams (-32602). -/
theorem c3_key_validation_witness :
    validateGetPeerRequest (some { PublicKey := zeroKeyStr }) = none
    ∧ (jsonrpc.InvalidParams
        "invalid public key: wgtypes: failed to parse base64-encoded key" none).Code = -32602
    ∧ validateAddPeerRequest envWit
        (some { PublicKey := zeroKeyStr, PresharedKey := otherKeyStr, Endpoint := ""
                PersistentKeepAlive := "", AllowedIPs := [], ValidateOnly := false }) = none :=
  ⟨(c3_key_validation envWit zeroKeyStr otherKeyStr (by decide)).1.mpr
      ⟨by decide, wgtypes.zeroKey, rfl, rfl⟩,
   (c3_key_validation envWit "!!!!!!!!!!!!!!!!!!!!!!!!!!!!!!!!!!!!!!!!!!!!" otherKeyStr (by decide)).2.1
      (jsonrpc.InvalidParams
        "invalid public key: wgtypes: failed to parse base64-encoded key" none) rfl,
   (c3_key_validation envWit zeroKeyStr otherKeyStr (by decide)).2.2.1.mpr
      ⟨⟨by decide, wgtypes.zeroKey, rfl, rfl⟩, ⟨by decide, otherKey, rfl, rfl⟩⟩⟩

/-! ## C7 — a single bad allowed_ips entry fails the whole AddPeer call -/

theorem parseAllowedIPs_first_bad (l : List String) (h : ∃ ip ∈ l, ParseCIDR ip = none) :
    ∃ bad, bad ∈ l ∧ ParseCIDR bad = none ∧
      parseAllowedIPs l = Except.error (jsonrpc.InvalidParams
        ("range " ++ goQuote bad ++ " is not valid: " ++ "invalid CIDR address: " ++ bad) none) := by
  induction l with
  | nil => simp at h
  | cons ip rest ih =>
    by_cases hc : ParseCIDR ip = none
    · exact ⟨ip, List.mem_cons_self ip rest, hc, by simp [parseAllowedIPs, hc]⟩
    · have hrest : ∃ x ∈ rest, ParseCIDR x = none := by
        rcases h with ⟨x, hx, hxn⟩
        rcases List.mem_cons.mp hx with hx1 | hx2
        · exact absurd (hx1 ▸ hxn) hc
        · exact ⟨x, hx2, hxn⟩
      rcases ih hrest with ⟨bad, hb, hbn, heq⟩
      rcases Option.ne_none_iff_exists'.mp hc with ⟨p, hp⟩
      exact ⟨bad, List.mem_cons_of_mem ip hb, hbn, by simp [parseAllowedIPs, hp, heq]⟩

/-- C7: an AddPeer request whose other fields pass their checks but whose
`allowed_ips` list contains an entry that does not parse as a CIDR range
fails entirely with an InvalidParams error naming the (first) offending
entry, and the provider is never called — even when every other entry is
valid. -/
theorem c7_bad_allowed_ip_fails_addPeer (env : StdEnv) (s : Server)
    (req : client.AddPeerRequest)
    (hpk : wellFormedKey req.PublicKey)
    (hpsk : req.PresharedKey = "" ∨ wellFormedKey req.PresharedKey)
    (hep : req.Endpoint = "" ∨ ∃ a, env.resolveUDPAddr req.Endpoint = Except.ok a)
    (hka : req.PersistentKeepAlive = "" ∨ ∃ d, env.parseDuration req.PersistentKeepAlive = Except.ok d)
    (hbad : ∃ ip ∈ req.AllowedIPs, ParseCIDR ip = none) :
    ∃ bad, bad ∈ req.AllowedIPs ∧ ParseCIDR bad = none ∧
      Server.AddPeer env s (some req) =
        (Except.error (HandlerError.rpc (jsonrpc.InvalidParams
          ("range " ++ goQuote bad ++ " is not valid: " ++ "invalid CIDR address: " ++ bad) none)),
         []) := by
  rcases parseAllowedIPs_first_bad _ hbad with ⟨bad, hb, hbn, heq⟩
  obtain ⟨h44, ks, hbs, hls⟩ := hpk
  have h0 : ¬ req.PublicKey = "" := by
    intro he
    rw [he] at h44
    exact absurd h44 (by decide)
  have hks : wgtypes.ParseKey req.PublicKey = Except.ok ks :=
    (parseKey_ok_iff _ ks).mpr ⟨hbs, hls⟩
  have hv : validateAddPeerRequest env (some req) =
      some (jsonrpc.InvalidParams
        ("range " ++ goQuote bad ++ " is not valid: " ++ "invalid CIDR address: " ++ bad) none) := by
    rcases hpsk with hpe | ⟨h44t, kt, hbt, hlt⟩
    · rcases hep with hee | ⟨a, hea⟩ <;> rcases hka with hke | ⟨d, hkd⟩
      · simp [validateAddPeerRequest, h0, h44, hks, hpe, hee, hke, heq]
      · simp [validateAddPeerRequest, h0, h44, hks, hpe, hee, hkd, heq]
      · simp [validateAddPeerRequest, h0, h44, hks, hpe, hea, hke, heq]
      · simp [validateAddPeerRequest, h0, h44, hks, hpe, hea, hkd, heq]
    · have hnet : req.PresharedKey ≠ "" := by
        intro he
        rw [he] at h44t
        exact absurd h44t (by decide)
      have hkt : wgtypes.ParseKey req.PresharedKey = Except.ok kt :=
        (parseKey_ok_iff _ kt).mpr ⟨hbt, hlt⟩
      rcases hep with hee | ⟨a, hea⟩ <;> rcases hka with hke | ⟨d, hkd⟩
      · simp [validateAddPeerRequest, h0, h44, hks, hnet, h44t, hkt, hee, hke, heq]
      · simp [validateAddPeerRequest, h0, h44, hks, hnet, h44t, hkt, hee, hkd, heq]
      · simp [validateAddPeerRequest, h0, h44, hks, hnet, h44t, hkt, hea, hke, heq]
      · simp [validateAddPeerRequest, h0, h44, hks, hnet, h44t, hkt, hea, hkd, heq]
  exact ⟨bad, hb, hbn, by simp [Server.AddPeer, hv]⟩

/-- Witness for `c7_bad_allowed_ip_fails_addPeer`: `"10.1.1.0/99"` among an
otherwise valid list fails the whole call with no provider interaction. -/
theorem c7_bad_allowed_ip_fails_addPeer_witness :
    ∃ bad, bad ∈ ["10.0.0.0/8", "10.1.1.0/99"] ∧ ParseCIDR bad = none ∧
      Server.AddPeer envWit srvNoDev
        (some { PublicKey := zeroKeyStr, PresharedKey := "", Endpoint := ""
                PersistentKeepAlive := "", AllowedIPs := ["10.0.0.0/8", "10.1.1.0/99"]
                ValidateOnly := false }) =
        (Except.error (HandlerError.rpc (jsonrpc.InvalidParams
          ("range " ++ goQuote bad ++ " is not valid: " ++ "invalid CIDR address: " ++ bad) none)),
         []) :=
  c7_bad_allowed_ip_fails_addPeer envWit srvNoDev
    { PublicKey := zeroKeyStr, PresharedKey := "", Endpoint := ""
      PersistentKeepAlive := "", AllowedIPs := ["10.0.0.0/8", "10.1.1.0/99"]
      ValidateOnly := false }
    ⟨by decide, wgtypes.zeroKey, rfl, rfl⟩ (Or.inl rfl) (Or.inl rfl) (Or.inl rfl)
    ⟨"10.1.1.0/99", by decide, rfl⟩
